import Mathlib

/-!
Verification of the Exonum on-chain Supervisor transaction logic
(`src/services/supervisor/src/transactions.rs`).

The transactions are embedded shallowly: the persistent supervisor schema is a
record of association lists, a transaction is a pure function from the
environment (block height, validator set, dispatcher state, runtime-extension
behaviour) and the schema to `Except ExecError (new schema, extension calls)`.
An `Except.error` result models the Rust execution error: the enclosing
transaction aborts and none of its schema mutations are persisted.

Parts of the repository that the transactions call but whose code is not in
the provided sources (the quorum tracker, `MigrationState`, the supervisor
mode policy, instance/artifact validation helpers) are modelled from the
specification; each such definition carries a doc comment saying so.
-/

set_option maxHeartbeats 1000000

namespace Supervisor

/-- Block height, the authoritative clock. -/
abbrev Height := Nat

/-- Validator service public key (abstract). -/
abbrev PublicKey := Nat

/-- Opaque state hash value reported by migration results. -/
abbrev MHash := Nat

/-- Service instance numeric identifier. -/
abbrev InstanceId := Nat

/-- Artifact identifier `(runtime_id, name, version)`. -/
structure ArtifactId where
  runtime_id : Nat
  name : String
  version : Nat
deriving DecidableEq, Repr

/-- Modelled from the spec: `ArtifactId::validate` (code not under the given
sources) requires the identifier to be well formed; we model this as the name
being nonempty. -/
def ArtifactId.validate (a : ArtifactId) : Bool := a.name ≠ ""

/-- Artifact status in the dispatcher. -/
inductive ArtifactStatus
  | Active
  | Deploying
  | Unloading
deriving DecidableEq, Repr

/-- Service instance status. -/
inductive InstanceStatus
  | Active
  | Stopped
  | Frozen
  | Migrating
deriving DecidableEq, Repr

/-- Modelled from the spec: only an `Active` service may be stopped. -/
def InstanceStatus.can_be_stopped : InstanceStatus → Bool
  | .Active => true
  | _ => false

/-- Modelled from the spec: only an `Active` service may be frozen. -/
def InstanceStatus.can_be_frozen : InstanceStatus → Bool
  | .Active => true
  | _ => false

/-- Modelled from the spec: only a `Frozen` service may be resumed. -/
def InstanceStatus.can_be_resumed : InstanceStatus → Bool
  | .Frozen => true
  | _ => false

/-- State of a service instance as seen by the dispatcher. -/
structure InstanceState where
  id : InstanceId
  name : String
  artifact : ArtifactId
  status : Option InstanceStatus
  data_version : Nat
deriving DecidableEq, Repr

/-- Modelled from the spec: `InstanceState::associated_artifact` is `none`
exactly when the instance data version differs from its artifact version
(the artifact association is then "lost"). -/
def InstanceState.associated_artifact (i : InstanceState) : Option ArtifactId :=
  if i.data_version = i.artifact.version then some i.artifact else none

/-- Error kinds raised by the supervisor transactions (descriptions dropped). -/
inductive ExecError
  | UnauthorizedCaller
  | ActualFromIsPast
  | DeadlineExceeded
  | ConfigProposeExists
  | ConfigProposeNotRegistered
  | IncorrectConfigurationNumber
  | AttemptToVoteTwice
  | MalformedConfigPropose
  | InvalidInstanceName
  | InstanceExists
  | UnknownArtifact
  | InvalidArtifactId
  | AlreadyDeployed
  | DeployRequestAlreadyRegistered
  | DeployRequestNotRegistered
  | MigrationRequestNotRegistered
  | MigrationFailed
  | StateHashDivergence
  | RuntimeError (code : Nat)
deriving DecidableEq, Repr

/-- Lifecycle tag shared by deploys and migrations. -/
inductive AsyncEventState
  | Pending
  | Succeed
  | Failed (height : Height) (error : ExecError)
deriving DecidableEq, Repr

/-- `AsyncEventState::is_failed`. -/
def AsyncEventState.is_failed : AsyncEventState → Bool
  | .Failed _ _ => true
  | _ => false

/-- Result type of `initiate_migration`. -/
inductive MigrationType
  | FastForward
  | Async
deriving DecidableEq, Repr

/-- Deploy request `(artifact, spec bytes, deadline height)`. -/
structure DeployRequest where
  artifact : ArtifactId
  spec : Nat
  deadline_height : Height
deriving DecidableEq, Repr

/-- Local deploy outcome reported by a validator. -/
structure DeployResult where
  request : DeployRequest
  result : Except ExecError Unit
deriving Repr

/-- Migration request `(new_artifact, service name, deadline height, seed)`. -/
structure MigrationRequest where
  new_artifact : ArtifactId
  service : String
  deadline_height : Height
  seed : Nat
deriving DecidableEq, Repr

/-- Local migration outcome reported by a validator: the achieved state hash,
or an error message (modelled as a numeric code). -/
structure MigrationResult where
  request : MigrationRequest
  status : Except Nat MHash
deriving Repr

/-- Modelled from the spec: `MigrationState` (code not under the given
sources) is `(phase, current_version, accumulated state hash)`. -/
structure MigrationState where
  state : AsyncEventState
  version : Nat
  reference_state_hash : Option MHash
deriving DecidableEq, Repr

/-- Modelled from the spec: a fresh migration state with no recorded hash. -/
def MigrationState.new (state : AsyncEventState) (version : Nat) : MigrationState :=
  ⟨state, version, none⟩

/-- `MigrationState::is_failed`. -/
def MigrationState.is_failed (s : MigrationState) : Bool := s.state.is_failed

/-- Modelled from the spec: `MigrationState.add_state_hash(hash)`: if a hash is
already recorded and differs, return `StateHashDivergence`; else record it. -/
def MigrationState.add_state_hash (s : MigrationState) (h : MHash) :
    Except ExecError MigrationState :=
  match s.reference_state_hash with
  | some h0 => if h0 = h then .ok s else .error .StateHashDivergence
  | none => .ok { s with reference_state_hash := some h }

/-- Modelled from the spec: `MigrationState.update` sets the phase and the
current version (used by the fast-forward path). -/
def MigrationState.update (s : MigrationState) (st : AsyncEventState) (v : Nat) :
    MigrationState :=
  { s with state := st, version := v }

/-- Modelled from the spec: `MigrationState.fail` sets the phase only. -/
def MigrationState.fail (s : MigrationState) (st : AsyncEventState) : MigrationState :=
  { s with state := st }

/-! ### Association-list maps

The persistent schema indexes are modelled as association lists. -/

/-- Lookup in an association list. -/
def alookup {K V : Type} [DecidableEq K] (m : List (K × V)) (k : K) : Option V :=
  match m with
  | [] => none
  | (k0, v0) :: t => if k0 = k then some v0 else alookup t k

/-- Remove every binding of a key. -/
def aremove {K V : Type} [DecidableEq K] (m : List (K × V)) (k : K) : List ( K × V) :=
  match m with
  | [] => []
  | (k0, v0) :: t => if k0 = k then aremove t k else (k0, v0) :: aremove t k

/-- Insert or overwrite a binding. -/
def aput {K V : Type} [DecidableEq K] (m : List (K × V)) (k : K) (v : V) : List (K × V) :=
  (k, v) :: aremove m k

theorem alookup_aremove_self {K V : Type} [DecidableEq K] (m : List (K × V)) (k : K) :
    alookup (aremove m k) k = none := by
  induction m with
  | nil => simp [alookup, aremove]
  | cons p t ih =>
    obtain ⟨k0, v0⟩ := p
    by_cases h : k0 = k
    · simpa [aremove, h] using ih
    · simpa [aremove, alookup, h] using ih

theorem alookup_aremove_ne {K V : Type} [DecidableEq K] (m : List (K × V)) (k k' : K)
    (h : k' ≠ k) : alookup (aremove m k) k' = alookup m k' := by
  induction m with
  | nil => simp [aremove]
  | cons p t ih =>
    obtain ⟨k0, v0⟩ := p
    by_cases hk : k0 = k
    · have hkk' : k ≠ k' := fun hc => h hc.symm
      simp [aremove, alookup, hk, hkk', ih]
    · by_cases hk' : k0 = k'
      · simp [aremove, alookup, hk, hk', h]
      · simp [aremove, alookup, hk, hk', ih]

theorem alookup_aput_self {K V : Type} [DecidableEq K] (m : List (K × V)) (k : K) (v : V) :
    alookup (aput m k v) k = some v := by
  simp [aput, alookup]

theorem alookup_aput_ne {K V : Type} [DecidableEq K] (m : List (K × V)) (k k' : K) (v : V)
    (h : k' ≠ k) : alookup (aput m k v) k' = alookup m k' := by
  have : k ≠ k' := fun hc => h hc.symm
  simp [aput, alookup, this, alookup_aremove_ne m k k' h]

/-! ### Config changes and proposals -/

/-- `StartService` config change. -/
structure StartService where
  name : String
  artifact : ArtifactId
  config : Nat
deriving DecidableEq, Repr

/-- `StopService` config change. -/
structure StopService where
  instance_id : InstanceId
deriving DecidableEq, Repr

/-- `FreezeService` config change. -/
structure FreezeService where
  instance_id : InstanceId
deriving DecidableEq, Repr

/-- `ResumeService` config change. -/
structure ResumeService where
  instance_id : InstanceId
  params : Nat
deriving DecidableEq, Repr

/-- `UnloadArtifact` config change. -/
structure UnloadArtifact where
  artifact_id : ArtifactId
deriving DecidableEq, Repr

/-- `Service` (instance parameters) config change. -/
structure ServiceConfig where
  instance_id : InstanceId
  params : Nat
deriving DecidableEq, Repr

/-- Consensus parameters; `valid` models the outcome of `config.validate()`
(`ConsensusConfig` validation code is not under the given sources). -/
structure ConsensusConfig where
  payload : Nat
  valid : Bool
deriving DecidableEq, Repr

/-- Atomic config change variants. -/
inductive ConfigChange
  | Consensus (config : ConsensusConfig)
  | Service (config : ServiceConfig)
  | StartService (svc : StartService)
  | StopService (svc : StopService)
  | FreezeService (svc : FreezeService)
  | ResumeService (svc : ResumeService)
  | UnloadArtifact (art : UnloadArtifact)
deriving DecidableEq, Repr

/-- `ConfigPropose`: a bundle of config changes to apply from `actual_from`. -/
structure ConfigPropose where
  actual_from : Height
  configuration_number : Nat
  changes : List ConfigChange
deriving DecidableEq, Repr

/-- The collision-resistant object hash of a proposal is modelled by the
proposal value itself (equal hashes are treated as equal values by the code). -/
abbrev ProposeHash := ConfigPropose

/-- `ConfigPropose::object_hash`, modelled as the identity (see `ProposeHash`). -/
def ConfigPropose.object_hash (p : ConfigPropose) : ProposeHash := p

/-- A stored proposal together with its hash. -/
structure ConfigProposalWithHash where
  config_propose : ConfigPropose
  propose_hash : ProposeHash
deriving DecidableEq, Repr

/-- A vote for the pending proposal. -/
structure ConfigVote where
  propose_hash : ProposeHash
deriving DecidableEq, Repr

/-! ### Quorum tracker and supervisor mode

Modelled from the spec (the multisig index and mode code are not under the
given sources): a quorum set is a `map<Key, set<Validator>>`, represented as а
list of `(key, validator)` pairs without duplicates. -/

/-- `confirmed_by(key, validator)`: has the validator confirmed the key? -/
def confirmed_by {K : Type} [DecidableEq K] (m : List (K × PublicKey)) (k : K)
    (pk : PublicKey) : Bool :=
  m.any (fun p => p = (k, pk))

/-- `confirm(key, validator)`: idempotent on `(key, validator)`. -/
def confirm {K : Type} [DecidableEq K] (m : List (K × PublicKey)) (k : K)
    (pk : PublicKey) : List (K × PublicKey) :=
  if confirmed_by m k pk then m else (k, pk) :: m

/-- The distinct validators that confirmed a key. -/
def confirmations_for {K : Type} [DecidableEq K] (m : List (K × PublicKey)) (k : K) :
    List PublicKey :=
  ((m.filter (fun p => p.1 = k)).map Prod.snd).dedup

/-- Supervisor mode: approval policy. -/
inductive SupervisorMode
  | Simple
  | Decentralized
deriving DecidableEq, Repr

/-- Modelled from the spec: quorum size — `Simple` needs 1 vote,
`Decentralized` needs `2N/3 + 1`. -/
def quorum_size : SupervisorMode → Nat → Nat
  | .Simple, _ => 1
  | .Decentralized, n => 2 * n / 3 + 1

/-- Modelled from the spec: `intersect_with_validators` holds iff the number of
distinct confirming validators among the current keys reaches the quorum. -/
def intersect_with_validators {K : Type} [DecidableEq K] (mode : SupervisorMode)
    (m : List (K × PublicKey)) (k : K) (validators : List PublicKey) : Bool :=
  quorum_size mode validators.length ≤
    ((confirmations_for m k).filter (fun pk => decide (pk ∈ validators))).length

/-- Modelled from the spec: the mode's deploy approval policy — the request is
approved once the distinct confirmations reach the quorum. -/
def SupervisorMode.deploy_approved (mode : SupervisorMode) (d : DeployRequest)
    (requests : List (DeployRequest × PublicKey)) (validator_count : Nat) : Bool :=
  quorum_size mode validator_count ≤ (confirmations_for requests d).length

/-- Modelled from the spec: the mode's migration approval policy. -/
def SupervisorMode.migration_approved (mode : SupervisorMode) (r : MigrationRequest)
    (requests : List (MigrationRequest × PublicKey)) (validator_count : Nat) : Bool :=
  quorum_size mode validator_count ≤ (confirmations_for requests r).length

/-! ### Persistent schema and environment -/

/-- The supervisor's persistent schema (`SchemaImpl`); `mode` is the stored
supervisor configuration's mode. -/
structure Schema where
  mode : SupervisorMode
  pending_proposal : Option ConfigProposalWithHash
  configuration_number : Nat
  config_confirms : List (ProposeHash × PublicKey)
  deploy_requests : List (DeployRequest × PublicKey)
  deploy_confirmations : List (DeployRequest × PublicKey)
  deploy_states : List (DeployRequest × AsyncEventState)
  pending_deployments : List (ArtifactId × DeployRequest)
  migration_requests : List (MigrationRequest × PublicKey)
  migration_confirmations : List (MigrationRequest × PublicKey)
  migration_states : List (MigrationRequest × MigrationState)
  pending_migrations : List MigrationRequest
  migrations_to_flush : List MigrationRequest
deriving DecidableEq

/-- The environment of a transaction execution: core schema data (height,
validator keys), dispatcher data (artifacts, instances) and the behaviour of
the runtime extension calls. -/
structure Env where
  height : Height
  validators : List PublicKey
  artifacts : List (ArtifactId × ArtifactStatus)
  instances : List InstanceState
  verify_config : InstanceId → Nat → Except ExecError Unit
  check_freezing : Nat → Bool
  check_unloading : ArtifactId → Bool
  initiate_migration : ArtifactId → String → Except ExecError MigrationType
  commit_migration : String → MHash → Except ExecError Unit
  rollback_migration : String → Except ExecError Unit

/-- Runtime-extension calls performed during a transaction, in order. -/
inductive ExtCall
  | start_artifact_registration (artifact : ArtifactId) (spec : Nat)
  | initiate_migration (artifact : ArtifactId) (service : String)
  | commit_migration (service : String) (hash : MHash)
  | rollback_migration (service : String)
deriving DecidableEq, Repr

/-- `get_validator`: the caller must be an externally signed transaction whose
author is a current validator. -/
def get_validator (env : Env) (caller : Option PublicKey) : Except ExecError PublicKey :=
  match caller with
  | none => .error .UnauthorizedCaller
  | some author =>
    if author ∈ env.validators then .ok author else .error .UnauthorizedCaller

/-- Dispatcher lookup of an instance by id (`get_instance`); absence is a
`MalformedConfigPropose` per `transactions.rs`. -/
def get_instance (env : Env) (iid : InstanceId) : Except ExecError InstanceState :=
  match env.instances.find? (fun i => decide (i.id = iid)) with
  | some inst => .ok inst
  | none => .error .MalformedConfigPropose

/-- Dispatcher lookup of an instance by name (`get_instance_by_name`). -/
def get_instance_by_name (env : Env) (service : String) : Except ExecError InstanceState :=
  match env.instances.find? (fun i => decide (i.name = service)) with
  | some inst => .ok inst
  | none => .error .MalformedConfigPropose

/-! ### Config-change validation (`verify_config_changes`) -/

/-- Modelled from the spec: `InstanceSpec::is_valid_name` (code not under the
given sources); we require a nonempty name. -/
def is_valid_name (name : String) : Bool := name ≠ ""

/-- The instance id a change registers in `modified_instances`, if any
(`ConfigChange::register_instance`). -/
def ConfigChange.instance_id_of : ConfigChange → Option InstanceId
  | .StopService s => some s.instance_id
  | .FreezeService s => some s.instance_id
  | .ResumeService s => some s.instance_id
  | .Service s => some s.instance_id
  | _ => none

/-- `ConfigChange::register_instance`: each instance id may be touched by at
most one change of the proposal. -/
def register_instance (change : ConfigChange) (modified : List InstanceId) :
    Except ExecError (List InstanceId) :=
  match change.instance_id_of with
  | some iid =>
    if iid ∈ modified then .error .MalformedConfigPropose else .ok (iid :: modified)
  | none => .ok modified

/-- `StartService::validate`: valid name, artifact deployed and `Active`,
no instance with the same name. -/
def StartService.validate (env : Env) (s : StartService) : Except ExecError Unit :=
  if ¬ is_valid_name s.name then .error .InvalidInstanceName
  else
    match alookup env.artifacts s.artifact with
    | none => .error .UnknownArtifact
    | some st =>
      if st ≠ .Active then .error .UnknownArtifact
      else if (env.instances.find? (fun i => decide (i.name = s.name))).isSome then
        .error .InstanceExists
      else .ok ()

/-- `validate_status`: the instance exists and its status allows the action. -/
def validate_status (env : Env) (iid : InstanceId) (check : InstanceStatus → Bool) :
    Except ExecError InstanceState :=
  match get_instance env iid with
  | .error e => .error e
  | .ok inst =>
    match inst.status with
    | some st => if check st then .ok inst else .error .MalformedConfigPropose
    | none => .error .MalformedConfigPropose

/-- `StopService::validate`. -/
def StopService.validate (env : Env) (s : StopService) : Except ExecError Unit :=
  match validate_status env s.instance_id InstanceStatus.can_be_stopped with
  | .error e => .error e
  | .ok _ => .ok ()

/-- `FreezeService::validate`, returning the instance state. -/
def FreezeService.validate (env : Env) (s : FreezeService) :
    Except ExecError InstanceState :=
  validate_status env s.instance_id InstanceStatus.can_be_frozen

/-- `ResumeService::validate`: the instance exists, may be resumed, and its
artifact association is not lost. -/
def ResumeService.validate (env : Env) (r : ResumeService) : Except ExecError Unit :=
  match get_instance env r.instance_id with
  | .error e => .error e
  | .ok inst =>
    let can : Bool := match inst.status with
      | some st => st.can_be_resumed
      | none => false
    if can = false then .error .MalformedConfigPropose
    else if inst.associated_artifact.isNone then .error .MalformedConfigPropose
    else .ok ()

/-- `UnloadArtifact::validate`: the dispatcher must permit unloading; its
refusal is reported as `MalformedConfigPropose`. -/
def UnloadArtifact.validate (env : Env) (u : UnloadArtifact) : Except ExecError Unit :=
  if env.check_unloading u.artifact_id then .ok () else .error .MalformedConfigPropose

/-- Accumulator of `verify_config_changes`. -/
structure VerifyAcc where
  consensus_propose_added : Bool
  modified_instances : List InstanceId
  services_to_start : List String
  artifacts_for_started_services : List ArtifactId
  unloaded_artifacts : List ArtifactId
deriving Repr

/-- One iteration of the `verify_config_changes` loop: register the touched
instance, then validate the change, extending the accumulator. -/
def verify_change_step (env : Env) (change : ConfigChange) (acc0 : VerifyAcc) :
    Except ExecError VerifyAcc :=
  match register_instance change acc0.modified_instances with
  | .error e => .error e
  | .ok modified =>
    let acc := { acc0 with modified_instances := modified }
    match change with
    | .Consensus config =>
      if acc.consensus_propose_added then .error .MalformedConfigPropose
      else if ¬ config.valid then .error .MalformedConfigPropose
      else .ok { acc with consensus_propose_added := true }
    | .Service config =>
      match env.verify_config config.instance_id config.params with
      | .error e => .error e
      | .ok _ => .ok acc
    | .StartService svc =>
      if svc.name ∈ acc.services_to_start then .error .MalformedConfigPropose
      else
        match StartService.validate env svc with
        | .error e => .error e
        | .ok _ => .ok { acc with
            services_to_start := svc.name :: acc.services_to_start,
            artifacts_for_started_services :=
              svc.artifact :: acc.artifacts_for_started_services }
    | .StopService svc =>
      match StopService.validate env svc with
      | .error e => .error e
      | .ok _ => .ok acc
    | .ResumeService svc =>
      match ResumeService.validate env svc with
      | .error e => .error e
      | .ok _ => .ok acc
    | .FreezeService svc =>
      match FreezeService.validate env svc with
      | .error e => .error e
      | .ok inst =>
        if ¬ env.check_freezing inst.artifact.runtime_id then
          .error .MalformedConfigPropose
        else .ok acc
    | .UnloadArtifact art =>
      if art.artifact_id ∈ acc.unloaded_artifacts then .error .MalformedConfigPropose
      else
        match UnloadArtifact.validate env art with
        | .error e => .error e
        | .ok _ => .ok { acc with
            unloaded_artifacts := art.artifact_id :: acc.unloaded_artifacts }

/-- The per-change loop of `Supervisor::verify_config_changes`. -/
def verify_changes_loop (env : Env) : List ConfigChange → VerifyAcc →
    Except ExecError VerifyAcc
  | [], acc => .ok acc
  | change :: rest, acc =>
    match verify_change_step env change acc with
    | .error e => .error e
    | .ok acc => verify_changes_loop env rest acc

/-- `Supervisor::verify_config_changes`: validate every change, then require
the unloaded artifacts to be disjoint from the artifacts of started services. -/
def verify_config_changes (env : Env) (changes : List ConfigChange) :
    Except ExecError Unit :=
  match verify_changes_loop env changes ⟨false, [], [], [], []⟩ with
  | .error e => .error e
  | .ok acc =>
    if acc.unloaded_artifacts.any
        (fun a => decide (a ∈ acc.artifacts_for_started_services)) then
      .error .MalformedConfigPropose
    else .ok ()

/-! ### Governance transactions -/

/-- The `actual_from` handling of `propose_config_change`: `0` is replaced by
the next height, otherwise the height must be in the future. -/
def normalize_actual_from (env : Env) (propose : ConfigPropose) :
    Except ExecError ConfigPropose :=
  if propose.actual_from = 0 then
    .ok { propose with actual_from := env.height + 1 }
  else if propose.actual_from ≤ env.height then
    .error .ActualFromIsPast
  else .ok propose

/-- The pending-proposal check of `propose_config_change`: reject while a
still-actual proposal exists, silently evict an outdated one. -/
def evict_or_reject_pending (env : Env) (s : Schema) : Except ExecError Schema :=
  match s.pending_proposal with
  | some proposal =>
    if env.height < proposal.config_propose.actual_from then
      .error .ConfigProposeExists
    else .ok { s with pending_proposal := none }
  | none => .ok s

/-- `propose_config_change` (method 2). -/
def propose_config_change (env : Env) (caller : Option PublicKey) (s : Schema)
    (propose : ConfigPropose) : Except ExecError Schema :=
  match get_validator env caller with
  | .error e => .error e
  | .ok author =>
    match normalize_actual_from env propose with
    | .error e => .error e
    | .ok propose =>
      match evict_or_reject_pending env s with
      | .error e => .error e
      | .ok s =>
        match verify_config_changes env propose.changes with
        | .error e => .error e
        | .ok _ =>
          if propose.configuration_number ≠ s.configuration_number then
            .error .IncorrectConfigurationNumber
          else
            let s := { s with configuration_number := s.configuration_number + 1 }
            let propose_hash := propose.object_hash
            let s := { s with
              config_confirms := confirm s.config_confirms propose_hash author }
            .ok { s with pending_proposal := some ⟨propose, propose_hash⟩ }

/-- `confirm_config_change` (method 3). -/
def confirm_config_change (env : Env) (caller : Option PublicKey) (s : Schema)
    (vote : ConfigVote) : Except ExecError Schema :=
  match get_validator env caller with
  | .error e => .error e
  | .ok author =>
    match s.pending_proposal with
    | none => .error .ConfigProposeNotRegistered
    | some entry =>
      if entry.propose_hash ≠ vote.propose_hash then .error .ConfigProposeNotRegistered
      else if entry.config_propose.actual_from ≤ env.height then
        .error .DeadlineExceeded
      else if confirmed_by s.config_confirms entry.propose_hash author then
        .error .AttemptToVoteTwice
      else .ok { s with config_confirms := confirm s.config_confirms vote.propose_hash author }

/-! ### Deploy transactions -/

/-- `request_artifact_deploy` (method 0). -/
def request_artifact_deploy (env : Env) (caller : Option PublicKey) (s : Schema)
    (deploy : DeployRequest) : Except ExecError Schema :=
  match get_validator env caller with
  | .error e => .error e
  | .ok author =>
    if ¬ deploy.artifact.validate then .error .InvalidArtifactId
    else if deploy.deadline_height < env.height then .error .ActualFromIsPast
    -- Verify that the artifact is not deployed yet.
    else if (alookup env.artifacts deploy.artifact).isSome then .error .AlreadyDeployed
    -- If deployment is already registered, check whether the request is new.
    else if (alookup s.pending_deployments deploy.artifact).isSome then
      if ¬ confirmed_by s.deploy_requests deploy author then
        .ok { s with deploy_requests := confirm s.deploy_requests deploy author }
      else .error .DeployRequestAlreadyRegistered
    else
      let s := { s with deploy_requests := confirm s.deploy_requests deploy author }
      if s.mode.deploy_approved deploy s.deploy_requests env.validators.length then
        let s := { s with deploy_states := aput s.deploy_states deploy .Pending }
        .ok { s with pending_deployments := aput s.pending_deployments deploy.artifact deploy }
      else .ok s

/-- Is the recorded deploy state of the request already failed? -/
def deploy_state_failed (s : Schema) (d : DeployRequest) : Bool :=
  match alookup s.deploy_states d with
  | some st => st.is_failed
  | none => false

/-- `Supervisor::confirm_deploy`: record the confirmation; at quorum, mark the
deploy `Succeed` and start the artifact registration in the dispatcher. -/
def confirm_deploy (env : Env) (s : Schema) (deploy_request : DeployRequest)
    (author : PublicKey) : Except ExecError (Schema × List ExtCall) :=
  let s := { s with
    deploy_confirmations := confirm s.deploy_confirmations deploy_request author }
  if intersect_with_validators s.mode s.deploy_confirmations deploy_request
      env.validators then
    let s := { s with deploy_states := aput s.deploy_states deploy_request .Succeed }
    .ok (s, [.start_artifact_registration deploy_request.artifact deploy_request.spec])
  else .ok (s, [])

/-- `Supervisor::fail_deploy`: mark the deploy failed at the current height and
remove the artifact from pending deployments. -/
def fail_deploy (env : Env) (s : Schema) (deploy_request : DeployRequest)
    (error : ExecError) : Schema :=
  let s := { s with
    deploy_states := aput s.deploy_states deploy_request (.Failed env.height error) }
  { s with pending_deployments := aremove s.pending_deployments deploy_request.artifact }

/-- `report_deploy_result` (method 1). -/
def report_deploy_result (env : Env) (caller : Option PublicKey) (s : Schema)
    (deploy_result : DeployResult) : Except ExecError (Schema × List ExtCall) :=
  match get_validator env caller with
  | .error e => .error e
  | .ok author =>
    -- Check if deployment already failed: silently accept.
    if deploy_state_failed s deploy_result.request then .ok (s, [])
    else
      -- Verify that this deployment is registered.
      match alookup s.pending_deployments deploy_result.request.artifact with
      | none => .error .DeployRequestNotRegistered
      | some deploy_request =>
        -- Check that the pending deployment is the same as in the confirmation.
        if deploy_request ≠ deploy_result.request then .error .DeployRequestNotRegistered
        else if deploy_request.deadline_height < env.height then .error .DeadlineExceeded
        else
          match deploy_result.result with
          | .ok _ => confirm_deploy env s deploy_request author
          | .error e => .ok (fail_deploy env s deploy_request e, [])

/-! ### Migration transactions -/

/-- `SchemaImpl::migration_state_unchecked`; the Rust accessor panics when the
state is absent, every reachable call site has it present. -/
def migration_state_unchecked (s : Schema) (r : MigrationRequest) : MigrationState :=
  (alookup s.migration_states r).getD (MigrationState.new .Pending 0)

/-- Set insertion for `pending_migrations` / `migrations_to_flush`. -/
def set_insert (l : List MigrationRequest) (r : MigrationRequest) : List MigrationRequest :=
  if r ∈ l then l else r :: l

/-- Set removal for `pending_migrations` / `migrations_to_flush`. -/
def set_remove (l : List MigrationRequest) (r : MigrationRequest) : List MigrationRequest :=
  l.filter (fun x => decide (x ≠ r))

/-- `Supervisor::fail_migration`: mark the migration failed at the current
height, drop it from the pending set, and roll it back when requested. -/
def fail_migration (env : Env) (s : Schema) (request : MigrationRequest)
    (error : ExecError) (initiate_rollback : Bool) :
    Except ExecError (Schema × List ExtCall) :=
  let state := (migration_state_unchecked s request).fail (.Failed env.height error)
  let s := { s with migration_states := aput s.migration_states request state }
  let s := { s with pending_migrations := set_remove s.pending_migrations request }
  if initiate_rollback then
    match env.rollback_migration request.service with
    | .ok _ => .ok (s, [.rollback_migration request.service])
    | .error e => .error e
  else .ok (s, [])

/-- `request_migration` (method 4). -/
def request_migration (env : Env) (caller : Option PublicKey) (s : Schema)
    (request : MigrationRequest) : Except ExecError (Schema × List ExtCall) :=
  match get_validator env caller with
  | .error e => .error e
  | .ok author =>
    -- Check that the target instance exists.
    match get_instance_by_name env request.service with
    | .error e => .error e
    | .ok instanceState =>
      if request.deadline_height < env.height then .error .ActualFromIsPast
      else
        let s := { s with migration_requests := confirm s.migration_requests request author }
        if s.mode.migration_approved request s.migration_requests
            env.validators.length then
          -- Store the initial state and mark the migration as pending.
          let state := MigrationState.new .Pending instanceState.data_version
          let s := { s with migration_states := aput s.migration_states request state }
          let s := { s with pending_migrations := set_insert s.pending_migrations request }
          -- Request the core to start the migration.
          match env.initiate_migration request.new_artifact request.service with
          | .error error =>
            -- The migration failed before starting: soft failure, no rollback.
            match fail_migration env s request error false with
            | .error e => .error e
            | .ok (s2, calls) =>
              .ok (s2, ExtCall.initiate_migration request.new_artifact request.service :: calls)
          | .ok .FastForward =>
            -- A fast-forward migration completes immediately.
            let state := state.update .Succeed request.new_artifact.version
            let s := { s with migration_states := aput s.migration_states request state }
            let s := { s with pending_migrations := set_remove s.pending_migrations request }
            .ok (s, [.initiate_migration request.new_artifact request.service])
          | .ok .Async =>
            .ok (s, [.initiate_migration request.new_artifact request.service])
        else .ok (s, [])

/-- `Supervisor::confirm_migration`: check hash agreement, record the
confirmation; at quorum, schedule the flush and commit the migration. -/
def confirm_migration (env : Env) (s : Schema) (request : MigrationRequest)
    (state_hash : MHash) (author : PublicKey) :
    Except ExecError (Schema × List ExtCall) :=
  let state0 := migration_state_unchecked s request
  match state0.add_state_hash state_hash with
  | .error error => fail_migration env s request error true
  | .ok state =>
    let s := { s with migration_states := aput s.migration_states request state }
    let s := { s with
      migration_confirmations := confirm s.migration_confirmations request author }
    if intersect_with_validators s.mode s.migration_confirmations request
        env.validators then
      let s := { s with migration_states := aput s.migration_states request state }
      let s := { s with pending_migrations := set_remove s.pending_migrations request }
      let s := { s with migrations_to_flush := set_insert s.migrations_to_flush request }
      match env.commit_migration request.service state_hash with
      | .ok _ => .ok (s, [.commit_migration request.service state_hash])
      | .error e => .error e
    else .ok (s, [])

/-- `report_migration_result` (method 5). -/
def report_migration_result (env : Env) (caller : Option PublicKey) (s : Schema)
    (result : MigrationResult) : Except ExecError (Schema × List ExtCall) :=
  match get_validator env caller with
  | .error e => .error e
  | .ok author =>
    -- Verify that this migration is registered.
    match alookup s.migration_states result.request with
    | none => .error .MigrationRequestNotRegistered
    | some state =>
      -- Check if the migration already failed: silently accept.
      if state.is_failed then .ok (s, [])
      else if result.request.deadline_height < env.height then .error .DeadlineExceeded
      else
        match result.status with
        | .ok hash => confirm_migration env s result.request hash author
        | .error _ => fail_migration env s result.request .MigrationFailed true

/-! ### Helper lemmas -/

theorem confirmed_by_confirm_self {K : Type} [DecidableEq K]
    (m : List (K × PublicKey)) (k : K) (pk : PublicKey) :
    confirmed_by (confirm m k pk) k pk = true := by
  by_cases h : (k, pk) ∈ m <;> simp [confirm, confirmed_by, h]

theorem mem_set_remove_iff (l : List MigrationRequest) (r x : MigrationRequest) :
    x ∈ set_remove l r ↔ x ∈ l ∧ x ≠ r := by
  simp [set_remove, List.mem_filter]

theorem not_mem_set_remove_self (l : List MigrationRequest) (r : MigrationRequest) :
    r ∉ set_remove l r := by
  simp [mem_set_remove_iff]

theorem normalize_actual_from_zero (env : Env) (p : ConfigPropose)
    (h0 : p.actual_from = 0) :
    normalize_actual_from env p = .ok { p with actual_from := env.height + 1 } := by
  simp [normalize_actual_from, h0]

theorem normalize_actual_from_past (env : Env) (p : ConfigPropose)
    (h0 : p.actual_from ≠ 0) (hle : p.actual_from ≤ env.height) :
    normalize_actual_from env p = .error .ActualFromIsPast := by
  simp [normalize_actual_from, h0, hle]

theorem normalize_actual_from_future (env : Env) (p : ConfigPropose)
    (hf : env.height < p.actual_from) :
    normalize_actual_from env p = .ok p := by
  have h0 : p.actual_from ≠ 0 := by
    intro h
    rw [h] at hf
    exact Nat.not_lt_zero _ hf
  simp [normalize_actual_from, h0, Nat.not_le.mpr hf]

theorem normalize_actual_from_changes (env : Env) (p q : ConfigPropose)
    (h : normalize_actual_from env p = .ok q) : q.changes = p.changes := by
  unfold normalize_actual_from at h
  repeat' split at h
  all_goals try exact Except.noConfusion h
  all_goals injection h with h
  all_goals subst h
  all_goals rfl

/-! ### Claim theorems -/

/-- **C7** — in `propose_config_change`, an `actual_from` equal to `0` is
replaced by the current height plus one (the stored pending proposal then has
`actual_from = H + 1`); otherwise any `actual_from ≤ H` is rejected with
`ActualFromIsPast`. -/
theorem propose_actual_from_normalization_and_past
    (env : Env) (caller : Option PublicKey) (s : Schema) (p : ConfigPropose) :
    (p.actual_from = 0 → ∀ s', propose_config_change env caller s p = .ok s' →
      ∃ entry, s'.pending_proposal = some entry ∧
        entry.config_propose.actual_from = env.height + 1) ∧
    (p.actual_from ≠ 0 → p.actual_from ≤ env.height →
      ∀ author, get_validator env caller = .ok author →
      propose_config_change env caller s p = .error .ActualFromIsPast) := by
  constructor
  · intro h0 s' hp
    simp only [propose_config_change, normalize_actual_from_zero env p h0] at hp
    cases hg : get_validator env caller <;> rw [hg] at hp
    · exact Except.noConfusion hp
    · simp only [] at hp
      repeat' split at hp
      all_goals try exact Except.noConfusion hp
      all_goals injection hp with hp
      all_goals subst hp
      all_goals exact ⟨_, rfl, rfl⟩
  · intro h0 hle author hg
    unfold propose_config_change
    rw [hg, normalize_actual_from_past env p h0 hle]

/-- **C8** — `propose_config_change` fails with `ConfigProposeExists` while a
pending proposal whose `actual_from` is still in the future exists; a pending
proposal whose `actual_from` is not in the future is silently evicted and the
new proposal is processed exactly as if no pending proposal existed. -/
theorem propose_pending_exclusivity_and_stale_eviction
    (env : Env) (caller : Option PublicKey) (s : Schema) (p : ConfigPropose)
    (proposal : ConfigProposalWithHash)
    (hpend : s.pending_proposal = some proposal) :
    (∀ author, get_validator env caller = .ok author →
      (p.actual_from = 0 ∨ env.height < p.actual_from) →
      env.height < proposal.config_propose.actual_from →
      propose_config_change env caller s p = .error .ConfigProposeExists) ∧
    (proposal.config_propose.actual_from ≤ env.height →
      propose_config_change env caller s p =
        propose_config_change env caller { s with pending_proposal := none } p) := by
  constructor
  · intro author hg hfrom hfut
    have hn : ∃ q, normalize_actual_from env p = .ok q := by
      rcases hfrom with h0 | hf
      · exact ⟨_, normalize_actual_from_zero env p h0⟩
      · exact ⟨_, normalize_actual_from_future env p hf⟩
    obtain ⟨q, hn⟩ := hn
    have he : evict_or_reject_pending env s = .error .ConfigProposeExists := by
      simp [evict_or_reject_pending, hpend, hfut]
    unfold propose_config_change
    rw [hg, hn, he]
  · intro hstale
    have h1 : evict_or_reject_pending env s =
        .ok { s with pending_proposal := none } := by
      simp [evict_or_reject_pending, hpend, Nat.not_lt.mpr hstale]
    have h2 : evict_or_reject_pending env { s with pending_proposal := none } =
        .ok { s with pending_proposal := none } := by
      simp [evict_or_reject_pending]
    unfold propose_config_change
    cases hg : get_validator env caller with
    | error e => rfl
    | ok author =>
      cases hn : normalize_actual_from env p with
      | error e => rfl
      | ok q => rw [h1, h2]

/-- **C6** — for a deploy or migration request whose recorded lifecycle state
is already `Failed`, `report_deploy_result` and `report_migration_result`
return success, leave the schema unchanged and perform no extension call. -/
theorem report_silent_idempotence_after_failure
    (env : Env) (caller : Option PublicKey) (s : Schema) (author : PublicKey)
    (hg : get_validator env caller = .ok author) :
    (∀ dr : DeployResult, deploy_state_failed s dr.request = true →
      report_deploy_result env caller s dr = .ok (s, [])) ∧
    (∀ r : MigrationResult, ∀ st, alookup s.migration_states r.request = some st →
      st.is_failed = true →
      report_migration_result env caller s r = .ok (s, [])) := by
  constructor
  · intro dr hf
    unfold report_deploy_result
    rw [hg]
    simp [hf]
  · intro r st hst hf
    unfold report_migration_result
    rw [hg]
    simp [hst, hf]

/-- **C5** — when `report_deploy_result` carries `Err(e)` for a registered,
non-failed, in-deadline deploy request, the transaction succeeds; the effect is
`deploy_states[request] = Failed{H, e}` and the removal of
`pending_deployments[request.artifact]`. -/
theorem report_deploy_err_fails_whole_deploy
    (env : Env) (caller : Option PublicKey) (s : Schema) (author : PublicKey)
    (dr : DeployResult) (e : ExecError)
    (hg : get_validator env caller = .ok author)
    (hnotfailed : deploy_state_failed s dr.request = false)
    (hreg : alookup s.pending_deployments dr.request.artifact = some dr.request)
    (hdl : ¬ dr.request.deadline_height < env.height)
    (hres : dr.result = .error e) :
    ∃ s', report_deploy_result env caller s dr = .ok (s', []) ∧
      alookup s'.deploy_states dr.request = some (.Failed env.height e) ∧
      alookup s'.pending_deployments dr.request.artifact = none := by
  refine ⟨fail_deploy env s dr.request e, ?_, ?_, ?_⟩
  · unfold report_deploy_result
    rw [hg]
    simp [hnotfailed, hreg, hdl, hres]
  · simp [fail_deploy, alookup_aput_self]
  · simp [fail_deploy, alookup_aremove_self]

/-- A successful `propose_config_change` stores the proposal and implicitly
records the proposer's vote in `config_confirms` under the propose hash. -/
theorem propose_ok_records_author_vote
    (env : Env) (caller : Option PublicKey) (s : Schema) (p : ConfigPropose)
    (author : PublicKey) (s' : Schema)
    (hg : get_validator env caller = .ok author)
    (hp : propose_config_change env caller s p = .ok s') :
    ∃ entry, s'.pending_proposal = some entry ∧
      confirmed_by s'.config_confirms entry.propose_hash author = true := by
  simp only [propose_config_change, hg] at hp
  repeat' split at hp
  all_goals try exact Except.noConfusion hp
  all_goals injection hp with hp
  all_goals subst hp
  all_goals exact ⟨_, rfl, confirmed_by_confirm_self _ _ _⟩

/-- **C3** — replay safety of votes: for every validator who has already voted
for the pending proposal — whether the vote was recorded implicitly by
`propose_config_change` or explicitly by an earlier `confirm_config_change` —
a subsequent `confirm_config_change` with the matching propose hash fails with
`AttemptToVoteTwice`; per the abort semantics of the embedding the error
result persists no mutation, so the quorum counts in `config_confirms` are
unchanged. The first conjunct is the rejection for an arbitrary already-voted
validator; the second shows that a successful explicit vote records its author
(and keeps the pending proposal), so its replay falls under the first; the
third shows the proposer's implicit vote is recorded by
`propose_config_change`. -/
theorem confirm_replay_rejected
    (env : Env) (caller : Option PublicKey) (s : Schema) (author : PublicKey)
    (vote : ConfigVote) (entry : ConfigProposalWithHash)
    (hg : get_validator env caller = .ok author)
    (hentry : s.pending_proposal = some entry)
    (hvote : vote.propose_hash = entry.propose_hash)
    (hfut : env.height < entry.config_propose.actual_from) :
    (confirmed_by s.config_confirms entry.propose_hash author = true →
      confirm_config_change env caller s vote = .error .AttemptToVoteTwice) ∧
    (∀ s', confirm_config_change env caller s vote = .ok s' →
      s'.pending_proposal = s.pending_proposal ∧
      confirmed_by s'.config_confirms entry.propose_hash author = true) ∧
    (∀ (env0 : Env) (caller0 : Option PublicKey) (s0 : Schema)
      (p : ConfigPropose) (s1 : Schema),
      get_validator env0 caller0 = .ok author →
      propose_config_change env0 caller0 s0 p = .ok s1 →
      ∃ entry1, s1.pending_proposal = some entry1 ∧
        confirmed_by s1.config_confirms entry1.propose_hash author = true) := by
  refine ⟨?_, ?_, ?_⟩
  · intro hconf
    unfold confirm_config_change
    rw [hg, hentry]
    simp [hvote, Nat.not_le.mpr hfut, hconf]
  · intro s' hp
    unfold confirm_config_change at hp
    rw [hg, hentry] at hp
    simp only [] at hp
    repeat' split at hp
    all_goals try exact Except.noConfusion hp
    injection hp with hp
    subst hp
    refine ⟨hentry.symm, ?_⟩
    rw [← hvote]
    exact confirmed_by_confirm_self _ _ _
  · intro env0 caller0 s0 p s1 hg0 hp0
    exact propose_ok_records_author_vote env0 caller0 s0 p author s1 hg0 hp0

/-- **C4** — fast-forward migration: when an approved `request_migration`
causes `initiate_migration` to return `FastForward`, the migration state is
immediately `Succeed` with `current_version = new_artifact.version`, the
request is removed from `pending_migrations`, and the only extension call is
`initiate_migration` (no hash-agreement round, no `commit_migration`). -/
theorem request_migration_fast_forward
    (env : Env) (caller : Option PublicKey) (s : Schema)
    (request : MigrationRequest) (author : PublicKey) (inst : InstanceState)
    (hg : get_validator env caller = .ok author)
    (hinst : get_instance_by_name env request.service = .ok inst)
    (hdl : ¬ request.deadline_height < env.height)
    (happr : s.mode.migration_approved request
      (confirm s.migration_requests request author) env.validators.length = true)
    (hff : env.initiate_migration request.new_artifact request.service =
      .ok .FastForward) :
    ∃ s', request_migration env caller s request =
        .ok (s', [.initiate_migration request.new_artifact request.service]) ∧
      alookup s'.migration_states request =
        some ⟨.Succeed, request.new_artifact.version, none⟩ ∧
      request ∉ s'.pending_migrations := by
  unfold request_migration
  rw [hg, hinst]
  simp only [hdl, if_false, ite_false, ite_not, if_neg, not_false_iff]
  rw [hff]
  simp only [happr, if_true, ite_true, if_pos]
  refine ⟨_, rfl, ?_, ?_⟩
  · simp [MigrationState.new, MigrationState.update, alookup_aput_self]
  · exact not_mem_set_remove_self _ _

/-- The result of a successful `MigrationState.add_state_hash` keeps the
phase. -/
theorem add_state_hash_preserves_state (st st' : MigrationState) (h : MHash)
    (hok : st.add_state_hash h = .ok st') : st'.state = st.state := by
  unfold MigrationState.add_state_hash at hok
  repeat' split at hok
  all_goals try exact Except.noConfusion hok
  all_goals injection hok with hok
  all_goals subst hok
  all_goals rfl

/-- **C2** — migration hash agreement: a successful migration report whose
state hash differs from the hash already recorded in the `MigrationState` of
the same request marks the migration `Failed` with `StateHashDivergence`,
removes the request from `pending_migrations`, and invokes
`rollback_migration` exactly once. -/
theorem migration_hash_divergence_fails_and_rolls_back
    (env : Env) (caller : Option PublicKey) (s : Schema) (author : PublicKey)
    (r : MigrationResult) (st : MigrationState) (h0 h1 : MHash)
    (hg : get_validator env caller = .ok author)
    (hst : alookup s.migration_states r.request = some st)
    (hnf : st.is_failed = false)
    (hdl : ¬ r.request.deadline_height < env.height)
    (hres : r.status = .ok h1)
    (hhash : st.reference_state_hash = some h0)
    (hne : h0 ≠ h1)
    (hrb : env.rollback_migration r.request.service = .ok ()) :
    ∃ s', report_migration_result env caller s r =
        .ok (s', [.rollback_migration r.request.service]) ∧
      (∃ st', alookup s'.migration_states r.request = some st' ∧
        st'.state = .Failed env.height .StateHashDivergence) ∧
      r.request ∉ s'.pending_migrations := by
  have hunch : migration_state_unchecked s r.request = st := by
    simp [migration_state_unchecked, hst]
  have hadd : st.add_state_hash h1 = .error .StateHashDivergence := by
    simp [MigrationState.add_state_hash, hhash, hne]
  unfold report_migration_result
  rw [hg, hst]
  simp only [hnf, Bool.false_eq_true, if_false, hdl, hres]
  simp only [confirm_migration, hunch, hadd]
  simp only [fail_migration, hunch, if_true]
  rw [hrb]
  refine ⟨_, rfl,
    ⟨st.fail (.Failed env.height .StateHashDivergence), ?_, rfl⟩, ?_⟩
  · simp [alookup_aput_self]
  · exact not_mem_set_remove_self _ _

theorem verify_step_mono (env : Env) (c : ConfigChange) (acc acc₂ : VerifyAcc)
    (h : verify_change_step env c acc = .ok acc₂) :
    (∀ a, a ∈ acc.artifacts_for_started_services →
      a ∈ acc₂.artifacts_for_started_services) ∧
    (∀ a, a ∈ acc.unloaded_artifacts → a ∈ acc₂.unloaded_artifacts) := by
  simp only [verify_change_step] at h
  repeat' split at h
  all_goals try exact Except.noConfusion h
  all_goals injection h with h
  all_goals subst h
  all_goals refine ⟨fun a ha => ?_, fun a ha => ?_⟩
  all_goals first
    | exact ha
    | exact List.mem_cons_of_mem _ ha

theorem verify_step_start (env : Env) (svc : StartService) (acc acc₂ : VerifyAcc)
    (h : verify_change_step env (.StartService svc) acc = .ok acc₂) :
    svc.artifact ∈ acc₂.artifacts_for_started_services := by
  simp only [verify_change_step] at h
  repeat' split at h
  all_goals try exact Except.noConfusion h
  all_goals injection h with h
  all_goals subst h
  all_goals exact List.mem_cons_self _ _

theorem verify_step_unload (env : Env) (u : UnloadArtifact) (acc acc₂ : VerifyAcc)
    (h : verify_change_step env (.UnloadArtifact u) acc = .ok acc₂) :
    u.artifact_id ∈ acc₂.unloaded_artifacts := by
  simp only [verify_change_step] at h
  repeat' split at h
  all_goals try exact Except.noConfusion h
  all_goals injection h with h
  all_goals subst h
  all_goals exact List.mem_cons_self _ _

theorem verify_loop_mono (env : Env) :
    ∀ (changes : List ConfigChange) (acc acc' : VerifyAcc),
      verify_changes_loop env changes acc = .ok acc' →
      (∀ a, a ∈ acc.artifacts_for_started_services →
        a ∈ acc'.artifacts_for_started_services) ∧
      (∀ a, a ∈ acc.unloaded_artifacts → a ∈ acc'.unloaded_artifacts) := by
  intro changes
  induction changes with
  | nil =>
    intro acc acc' h
    simp only [verify_changes_loop] at h
    injection h with h
    subst h
    exact ⟨fun a ha => ha, fun a ha => ha⟩
  | cons c rest ih =>
    intro acc acc' h
    simp only [verify_changes_loop] at h
    cases hstep : verify_change_step env c acc with
    | error e => rw [hstep] at h; exact Except.noConfusion h
    | ok acc₂ =>
      rw [hstep] at h
      obtain ⟨m1, m2⟩ := verify_step_mono env c acc acc₂ hstep
      obtain ⟨l1, l2⟩ := ih acc₂ acc' h
      exact ⟨fun a ha => l1 a (m1 a ha), fun a ha => l2 a (m2 a ha)⟩

theorem verify_loop_start_collects (env : Env) (svc : StartService) :
    ∀ (changes : List ConfigChange) (acc acc' : VerifyAcc),
      ConfigChange.StartService svc ∈ changes →
      verify_changes_loop env changes acc = .ok acc' →
      svc.artifact ∈ acc'.artifacts_for_started_services := by
  intro changes
  induction changes with
  | nil => intro acc acc' hmem _; exact absurd hmem (List.not_mem_nil _)
  | cons c rest ih =>
    intro acc acc' hmem h
    simp only [verify_changes_loop] at h
    cases hstep : verify_change_step env c acc with
    | error e => rw [hstep] at h; exact Except.noConfusion h
    | ok acc₂ =>
      rw [hstep] at h
      rcases List.mem_cons.mp hmem with hc | hr
      · subst hc
        exact (verify_loop_mono env rest acc₂ acc' h).1 _
          (verify_step_start env svc acc acc₂ hstep)
      · exact ih acc₂ acc' hr h

theorem verify_loop_unload_collects (env : Env) (u : UnloadArtifact) :
    ∀ (changes : List ConfigChange) (acc acc' : VerifyAcc),
      ConfigChange.UnloadArtifact u ∈ changes →
      verify_changes_loop env changes acc = .ok acc' →
      u.artifact_id ∈ acc'.unloaded_artifacts := by
  intro changes
  induction changes with
  | nil => intro acc acc' hmem _; exact absurd hmem (List.not_mem_nil _)
  | cons c rest ih =>
    intro acc acc' hmem h
    simp only [verify_changes_loop] at h
    cases hstep : verify_change_step env c acc with
    | error e => rw [hstep] at h; exact Except.noConfusion h
    | ok acc₂ =>
      rw [hstep] at h
      rcases List.mem_cons.mp hmem with hc | hr
      · subst hc
        exact (verify_loop_mono env rest acc₂ acc' h).2 _
          (verify_step_unload env u acc acc₂ hstep)
      · exact ih acc₂ acc' hr h

/-- A change list accepted by `verify_config_changes` never both starts a
service from an artifact and unloads that artifact. -/
theorem verify_ok_disjoint (env : Env) (changes : List ConfigChange) (v : Unit)
    (h : verify_config_changes env changes = .ok v) (svc : StartService)
    (u : UnloadArtifact) (hs : ConfigChange.StartService svc ∈ changes)
    (hu : ConfigChange.UnloadArtifact u ∈ changes) :
    u.artifact_id ≠ svc.artifact := by
  intro heq
  unfold verify_config_changes at h
  cases hloop : verify_changes_loop env changes ⟨false, [], [], [], []⟩ with
  | error e => rw [hloop] at h; exact Except.noConfusion h
  | ok acc' =>
    rw [hloop] at h
    simp only [] at h
    have hstart := verify_loop_start_collects env svc changes _ acc' hs hloop
    have hunl := verify_loop_unload_collects env u changes _ acc' hu hloop
    have hc : (acc'.unloaded_artifacts.any
        (fun a => decide (a ∈ acc'.artifacts_for_started_services))) = true := by
      rw [List.any_eq_true]
      refine ⟨u.artifact_id, hunl, ?_⟩
      rw [heq]
      exact decide_eq_true hstart
    rw [if_pos hc] at h
    exact Except.noConfusion h

/-- **C9** — unload/start disjointness with all-or-nothing validation: a
proposal containing both a `StartService` from artifact `A` and an
`UnloadArtifact` of `A` is never accepted by `propose_config_change` (per the
abort semantics of the embedding an error persists no schema mutation), and
when the two conflicting changes are otherwise individually valid the error is
`MalformedConfigPropose`. -/
theorem start_unload_conflict_rejected
    (env : Env) (caller : Option PublicKey) (s : Schema) (p : ConfigPropose)
    (svc : StartService) (u : UnloadArtifact)
    (hs : ConfigChange.StartService svc ∈ p.changes)
    (hu : ConfigChange.UnloadArtifact u ∈ p.changes)
    (hsame : u.artifact_id = svc.artifact) :
    (∀ s', propose_config_change env caller s p ≠ .ok s') ∧
    (p.changes = [.StartService svc, .UnloadArtifact u] →
      StartService.validate env svc = .ok () →
      env.check_unloading u.artifact_id = true →
      ∀ author q s₂, get_validator env caller = .ok author →
        normalize_actual_from env p = .ok q →
        evict_or_reject_pending env s = .ok s₂ →
        propose_config_change env caller s p = .error .MalformedConfigPropose) := by
  constructor
  · intro s' hp
    unfold propose_config_change at hp
    cases hg : get_validator env caller <;> rw [hg] at hp
    · exact Except.noConfusion hp
    case ok author =>
      simp only [] at hp
      cases hn : normalize_actual_from env p <;> rw [hn] at hp
      · exact Except.noConfusion hp
      case ok q =>
        simp only [] at hp
        cases he : evict_or_reject_pending env s <;> rw [he] at hp
        · exact Except.noConfusion hp
        case ok s₂ =>
          simp only [] at hp
          cases hv : verify_config_changes env q.changes <;> rw [hv] at hp
          · exact Except.noConfusion hp
          case ok v =>
            rw [normalize_actual_from_changes env p q hn] at hv
            exact absurd hsame
              (verify_ok_disjoint env p.changes v hv svc u hs hu)
  · intro hch hval hunl author q s₂ hg hn he
    have hver : verify_config_changes env p.changes =
        .error .MalformedConfigPropose := by
      have hunl2 : env.check_unloading svc.artifact = true := by
        rw [← hsame]; exact hunl
      rw [hch]
      simp [verify_config_changes, verify_changes_loop, verify_change_step,
        register_instance, ConfigChange.instance_id_of, UnloadArtifact.validate,
        hval, hunl, hunl2, hsame]
    have hverq : verify_config_changes env q.changes =
        .error .MalformedConfigPropose := by
      rw [normalize_actual_from_changes env p q hn]
      exact hver
    unfold propose_config_change
    rw [hg]
    simp only []
    rw [hn]
    simp only []
    rw [he]
    simp only []
    rw [hverq]

/-- `fail_migration` with a rollback succeeds when the runtime's rollback
succeeds, and performs exactly the rollback call. -/
theorem fail_migration_rollback_ok (env : Env) (s : Schema)
    (request : MigrationRequest) (error : ExecError)
    (hrb : env.rollback_migration request.service = .ok ()) :
    fail_migration env s request error true = .ok
      ({ s with
          migration_states :=
            aput s.migration_states request
              ((migration_state_unchecked s request).fail
                (.Failed env.height error)),
          pending_migrations := set_remove s.pending_migrations request },
       [.rollback_migration request.service]) := by
  unfold fail_migration
  rw [hrb]
  rfl

/-- **C10** — deadlines are inclusive at the current height: every deadline
comparison in `request_artifact_deploy`, `request_migration`,
`report_deploy_result` and `report_migration_result` is the strict
`deadline_height < H`, so a request or report arriving at a block height
exactly equal to its `deadline_height` is still accepted, and a deploy report
arriving at `H = deadline_height` can still set the state to `Succeed`. -/
theorem deadlines_inclusive
    (env : Env) (caller : Option PublicKey) (s : Schema) (author : PublicKey)
    (hg : get_validator env caller = .ok author) :
    (∀ d : DeployRequest, d.deadline_height = env.height →
      d.artifact.validate = true →
      alookup env.artifacts d.artifact = none →
      alookup s.pending_deployments d.artifact = none →
      ∃ s', request_artifact_deploy env caller s d = .ok s') ∧
    (∀ (m : MigrationRequest) (inst : InstanceState), m.deadline_height = env.height →
      get_instance_by_name env m.service = .ok inst →
      ∃ out, request_migration env caller s m = .ok out) ∧
    (∀ dr : DeployResult, dr.request.deadline_height = env.height →
      alookup s.pending_deployments dr.request.artifact = some dr.request →
      ∃ out, report_deploy_result env caller s dr = .ok out) ∧
    (∀ (r : MigrationResult) (st : MigrationState),
      r.request.deadline_height = env.height →
      alookup s.migration_states r.request = some st →
      (∀ hsh, env.commit_migration r.request.service hsh = .ok ()) →
      env.rollback_migration r.request.service = .ok () →
      ∃ out, report_migration_result env caller s r = .ok out) ∧
    (∀ dr : DeployResult, dr.request.deadline_height = env.height →
      deploy_state_failed s dr.request = false →
      alookup s.pending_deployments dr.request.artifact = some dr.request →
      dr.result = .ok () →
      intersect_with_validators s.mode
        (confirm s.deploy_confirmations dr.request author) dr.request
        env.validators = true →
      ∃ s' calls, report_deploy_result env caller s dr = .ok (s', calls) ∧
        alookup s'.deploy_states dr.request = some .Succeed) := by
  refine ⟨?_, ?_, ?_, ?_, ?_⟩
  · -- request_artifact_deploy at the deadline height
    intro d hdl hval hnd hfresh
    have hdl2 : ¬ d.deadline_height < env.height := by
      rw [hdl]; exact Nat.lt_irrefl _
    unfold request_artifact_deploy
    rw [hg]
    simp only [hval, hdl2, hnd, hfresh, Option.isSome_none, Bool.not_true,
      Bool.false_eq_true, if_false, ite_false, not_true, Option.isSome_some]
    split
    · exact ⟨_, rfl⟩
    · exact ⟨_, rfl⟩
  · -- request_migration at the deadline height
    intro m inst hdl hinst
    have hdl2 : ¬ m.deadline_height < env.height := by
      rw [hdl]; exact Nat.lt_irrefl _
    unfold request_migration
    rw [hg, hinst]
    simp only [hdl2, if_false, ite_false]
    split
    · cases hini : env.initiate_migration m.new_artifact m.service with
      | error e => exact ⟨_, rfl⟩
      | ok ty => cases ty <;> exact ⟨_, rfl⟩
    · exact ⟨_, rfl⟩
  · -- report_deploy_result at the deadline height
    intro dr hdl hreg
    have hdl2 : ¬ dr.request.deadline_height < env.height := by
      rw [hdl]; exact Nat.lt_irrefl _
    unfold report_deploy_result
    rw [hg]
    by_cases hf : deploy_state_failed s dr.request
    · simp only [hf, if_true, ite_true]
      exact ⟨_, rfl⟩
    · simp only [hf, Bool.false_eq_true, if_false, ite_false, hreg]
      simp only [ne_eq, not_true_eq_false, if_false, ite_false, hdl2,
        not_false_eq_true, reduceIte]
      cases hres : dr.result with
      | error e => exact ⟨_, rfl⟩
      | ok u =>
        unfold confirm_deploy
        simp only []
        split
        · exact ⟨_, rfl⟩
        · exact ⟨_, rfl⟩
  · -- report_migration_result at the deadline height
    intro r st hdl hst hc hrb
    have hdl2 : ¬ r.request.deadline_height < env.height := by
      rw [hdl]; exact Nat.lt_irrefl _
    have hunch : migration_state_unchecked s r.request = st := by
      simp [migration_state_unchecked, hst]
    unfold report_migration_result
    rw [hg, hst]
    by_cases hf : st.is_failed
    · simp only [hf, if_true, ite_true]
      exact ⟨_, rfl⟩
    · simp only [hf, Bool.false_eq_true, if_false, ite_false, hdl2,
        not_false_eq_true, reduceIte]
      cases hres : r.status with
      | error msg =>
        simp only []
        rw [fail_migration_rollback_ok env s r.request .MigrationFailed hrb]
        exact ⟨_, rfl⟩
      | ok hash =>
        simp only []
        unfold confirm_migration
        rw [hunch]
        simp only []
        rcases href : st.reference_state_hash with _ | h0
        · rw [show st.add_state_hash hash =
              .ok { st with reference_state_hash := some hash } from by
            simp [MigrationState.add_state_hash, href]]
          simp only []
          split
          · rw [hc hash]
            exact ⟨_, rfl⟩
          · exact ⟨_, rfl⟩
        · by_cases he : h0 = hash
          · rw [show st.add_state_hash hash = .ok st from by
              simp [MigrationState.add_state_hash, href, he]]
            simp only []
            split
            · rw [hc hash]
              exact ⟨_, rfl⟩
            · exact ⟨_, rfl⟩
          · rw [show st.add_state_hash hash = .error .StateHashDivergence from by
              simp [MigrationState.add_state_hash, href, he]]
            simp only []
            rw [fail_migration_rollback_ok env s r.request .StateHashDivergence hrb]
            exact ⟨_, rfl⟩
  · -- a deploy report at the deadline height still reaches `Succeed`
    intro dr hdl hf hreg hres hint
    have hdl2 : ¬ dr.request.deadline_height < env.height := by
      rw [hdl]; exact Nat.lt_irrefl _
    unfold report_deploy_result
    rw [hg]
    simp only [hf, Bool.false_eq_true, if_false, ite_false, hreg]
    simp only [ne_eq, not_true_eq_false, if_false, ite_false, hdl2,
      not_false_eq_true, reduceIte]
    rw [hres]
    unfold confirm_deploy
    simp only [hint, if_true, ite_true]
    exact ⟨_, _, rfl, by simp [alookup_aput_self]⟩

/-- **C1** — deadline safety: no deploy or migration lifecycle state is newly
set to `Succeed` by `report_deploy_result`, `report_migration_result` or
`request_migration` at a height `H` exceeding the request's `deadline_height`,
and both report transactions reject late reports (registered, non-failed,
past-deadline) with `DeadlineExceeded`, so a request past its deadline can
only move to `Failed`. -/
theorem deadline_safety (env : Env) (caller : Option PublicKey) (s : Schema) :
    (∀ dr s' calls, report_deploy_result env caller s dr = .ok (s', calls) →
      ∀ req : DeployRequest, alookup s'.deploy_states req = some .Succeed →
        alookup s.deploy_states req ≠ some .Succeed →
        env.height ≤ req.deadline_height) ∧
    (∀ r s' calls, report_migration_result env caller s r = .ok (s', calls) →
      ∀ (req : MigrationRequest) (st' : MigrationState),
        alookup s'.migration_states req = some st' → st'.state = .Succeed →
        ¬ (∃ st, alookup s.migration_states req = some st ∧ st.state = .Succeed) →
        env.height ≤ req.deadline_height) ∧
    (∀ m s' calls, request_migration env caller s m = .ok (s', calls) →
      ∀ (req : MigrationRequest) (st' : MigrationState),
        alookup s'.migration_states req = some st' → st'.state = .Succeed →
        ¬ (∃ st, alookup s.migration_states req = some st ∧ st.state = .Succeed) →
        env.height ≤ req.deadline_height) ∧
    (∀ (dr : DeployResult) (author : PublicKey),
      get_validator env caller = .ok author →
      deploy_state_failed s dr.request = false →
      alookup s.pending_deployments dr.request.artifact = some dr.request →
      dr.request.deadline_height < env.height →
      report_deploy_result env caller s dr = .error .DeadlineExceeded) ∧
    (∀ (r : MigrationResult) (st : MigrationState) (author : PublicKey),
      get_validator env caller = .ok author →
      alookup s.migration_states r.request = some st →
      st.is_failed = false →
      r.request.deadline_height < env.height →
      report_migration_result env caller s r = .error .DeadlineExceeded) := by
  refine ⟨?_, ?_, ?_, ?_, ?_⟩
  · -- report_deploy_result never sets `Succeed` past the deadline
    intro dr s' calls hp req hnew hold
    unfold report_deploy_result at hp
    cases hg : get_validator env caller <;> rw [hg] at hp
    · exact Except.noConfusion hp
    · simp only [] at hp
      by_cases hf : deploy_state_failed s dr.request
      · rw [if_pos hf] at hp
        injection hp with hp
        injection hp with hs hc
        subst hs
        exact absurd hnew hold
      · rw [if_neg hf] at hp
        cases hpd : alookup s.pending_deployments dr.request.artifact <;> rw [hpd] at hp
        · exact Except.noConfusion hp
        · rename_i d
          simp only [] at hp
          by_cases hne : d = dr.request
          · subst hne
            rw [if_neg (fun h => h rfl)] at hp
            by_cases hdlt : dr.request.deadline_height < env.height
            · rw [if_pos hdlt] at hp
              exact Except.noConfusion hp
            · by_cases hreq : req = dr.request
              · subst hreq
                exact Nat.le_of_not_lt hdlt
              · rw [if_neg hdlt] at hp
                cases hres : dr.result <;> rw [hres] at hp
                · -- Err branch: `fail_deploy`
                  simp only [] at hp
                  injection hp with hp
                  injection hp with hs hc
                  subst hs
                  simp only [fail_deploy] at hnew
                  simp only [alookup_aput_ne _ _ _ _ hreq] at hnew
                  exact absurd hnew hold
                · -- Ok branch: `confirm_deploy`
                  simp only [] at hp
                  unfold confirm_deploy at hp
                  simp only [] at hp
                  split at hp
                  · injection hp with hp
                    injection hp with hs hc
                    subst hs
                    simp only [alookup_aput_ne _ _ _ _ hreq] at hnew
                    exact absurd hnew hold
                  · injection hp with hp
                    injection hp with hs hc
                    subst hs
                    exact absurd hnew hold
          · rw [if_pos hne] at hp
            exact Except.noConfusion hp
  · -- report_migration_result never sets `Succeed` past the deadline
    intro r s' calls hp req st' hnew hsucc hold
    unfold report_migration_result at hp
    cases hg : get_validator env caller <;> rw [hg] at hp
    · exact Except.noConfusion hp
    · simp only [] at hp
      cases hst : alookup s.migration_states r.request <;> rw [hst] at hp
      · exact Except.noConfusion hp
      · rename_i st
        simp only [] at hp
        by_cases hf : st.is_failed
        · rw [if_pos hf] at hp
          injection hp with hp
          injection hp with hs hc
          subst hs
          exact absurd ⟨st', hnew, hsucc⟩ hold
        · rw [if_neg hf] at hp
          by_cases hdlt : r.request.deadline_height < env.height
          · rw [if_pos hdlt] at hp
            exact Except.noConfusion hp
          · by_cases hreq : req = r.request
            · subst hreq
              exact Nat.le_of_not_lt hdlt
            · rw [if_neg hdlt] at hp
              have hunch : migration_state_unchecked s r.request = st := by
                simp [migration_state_unchecked, hst]
              cases hres : r.status <;> rw [hres] at hp
              · -- Err branch: `fail_migration` with rollback
                simp only [] at hp
                unfold fail_migration at hp
                simp only [] at hp
                cases hrb : env.rollback_migration r.request.service <;>
                  rw [hrb] at hp
                · exact Except.noConfusion hp
                · injection hp with hp
                  injection hp with hs hc
                  subst hs
                  simp only [alookup_aput_ne _ _ _ _ hreq] at hnew
                  exact absurd ⟨st', hnew, hsucc⟩ hold
              · -- Ok branch: `confirm_migration`
                simp only [] at hp
                unfold confirm_migration at hp
                rw [hunch] at hp
                simp only [] at hp
                rename_i hash
                cases hadd : st.add_state_hash hash <;> rw [hadd] at hp
                · -- hash mismatch: `fail_migration`
                  simp only [] at hp
                  unfold fail_migration at hp
                  simp only [] at hp
                  cases hrb : env.rollback_migration r.request.service <;>
                    rw [hrb] at hp
                  · exact Except.noConfusion hp
                  · injection hp with hp
                    injection hp with hs hc
                    subst hs
                    simp only [alookup_aput_ne _ _ _ _ hreq] at hnew
                    exact absurd ⟨st', hnew, hsucc⟩ hold
                · -- hash recorded
                  simp only [] at hp
                  split at hp
                  · cases hcm : env.commit_migration r.request.service hash <;>
                      rw [hcm] at hp
                    · exact Except.noConfusion hp
                    · injection hp with hp
                      injection hp with hs hc
                      subst hs
                      simp only [alookup_aput_ne _ _ _ _ hreq] at hnew
                      exact absurd ⟨st', hnew, hsucc⟩ hold
                  · injection hp with hp
                    injection hp with hs hc
                    subst hs
                    simp only [alookup_aput_ne _ _ _ _ hreq] at hnew
                    exact absurd ⟨st', hnew, hsucc⟩ hold
  · -- request_migration never sets `Succeed` past the deadline
    intro m s' calls hp req st' hnew hsucc hold
    unfold request_migration at hp
    cases hg : get_validator env caller <;> rw [hg] at hp
    · exact Except.noConfusion hp
    · simp only [] at hp
      cases hinst : get_instance_by_name env m.service <;> rw [hinst] at hp
      · exact Except.noConfusion hp
      · simp only [] at hp
        by_cases hdlt : m.deadline_height < env.height
        · rw [if_pos hdlt] at hp
          exact Except.noConfusion hp
        · by_cases hreq : req = m
          · subst hreq
            exact Nat.le_of_not_lt hdlt
          · rw [if_neg hdlt] at hp
            try simp only [] at hp
            split at hp
            · cases hini : env.initiate_migration m.new_artifact m.service <;>
                rw [hini] at hp
              · simp only [] at hp
                unfold fail_migration at hp
                simp only [] at hp
                injection hp with hp
                injection hp with hs hc
                subst hs
                simp only [alookup_aput_ne _ _ _ _ hreq] at hnew
                exact absurd ⟨st', hnew, hsucc⟩ hold
              · rename_i ty
                cases ty
                · simp only [] at hp
                  injection hp with hp
                  injection hp with hs hc
                  subst hs
                  simp only [alookup_aput_ne _ _ _ _ hreq] at hnew
                  exact absurd ⟨st', hnew, hsucc⟩ hold
                · simp only [] at hp
                  injection hp with hp
                  injection hp with hs hc
                  subst hs
                  simp only [alookup_aput_ne _ _ _ _ hreq] at hnew
                  exact absurd ⟨st', hnew, hsucc⟩ hold
            · injection hp with hp
              injection hp with hs hc
              subst hs
              exact absurd ⟨st', hnew, hsucc⟩ hold
  · -- a late deploy report is rejected with `DeadlineExceeded`
    intro dr author hg hnf hreg hlt
    unfold report_deploy_result
    rw [hg]
    simp only [hnf, Bool.false_eq_true, if_false, ite_false, hreg]
    simp only [ne_eq, not_true_eq_false, if_false, ite_false, reduceIte]
    rw [if_pos hlt]
  · -- a late migration report is rejected with `DeadlineExceeded`
    intro r st author hg hst hnf hlt
    unfold report_migration_result
    rw [hg, hst]
    simp only [hnf, Bool.false_eq_true, if_false, ite_false, reduceIte]
    rw [if_pos hlt]

/-- A concrete execution environment for the witnesses: height 1, validators
`1..4`, one active instance, all extension calls succeed. -/
def envW : Env where
  height := 1
  validators := [1, 2, 3, 4]
  artifacts := [(⟨0, "tok", 1⟩, .Active)]
  instances := [⟨7, "token", ⟨0, "tok", 1⟩, some .Active, 1⟩]
  verify_config := fun _ _ => .ok ()
  check_freezing := fun _ => true
  check_unloading := fun _ => true
  initiate_migration := fun _ _ => .ok .FastForward
  commit_migration := fun _ _ => .ok ()
  rollback_migration := fun _ => .ok ()

/-- An empty supervisor schema in `Decentralized` mode. -/
def sW : Schema := ⟨.Decentralized, none, 0, [], [], [], [], [], [], [], [], [], []⟩

/-- A concrete deploy request with deadline 1. -/
def dW : DeployRequest := ⟨⟨0, "art", 1⟩, 0, 1⟩

/-- A concrete migration request with deadline 1. -/
def mW : MigrationRequest := ⟨⟨0, "tok", 2⟩, "token", 1, 0⟩

/-- A concrete config proposal with `actual_from = 5`. -/
def pW : ConfigPropose := ⟨5, 0, []⟩

/-- Witness for `propose_actual_from_normalization_and_past` at
`actual_from = 1 = H`. -/
theorem propose_actual_from_past_witness :
    propose_config_change envW (some 1) sW ⟨1, 0, []⟩ = .error .ActualFromIsPast :=
  (propose_actual_from_normalization_and_past envW (some 1) sW ⟨1, 0, []⟩).2
    (by decide) (by decide) 1 rfl

/-- Schema holding a pending proposal with `actual_from = 5`, still in the
future at height 1. -/
def sW8 : Schema := { sW with pending_proposal := some ⟨pW, pW⟩ }

/-- Witness for `propose_pending_exclusivity_and_stale_eviction`: a second
proposal while one is pending is rejected. -/
theorem propose_pending_exists_witness :
    propose_config_change envW (some 1) sW8 ⟨4, 0, []⟩ = .error .ConfigProposeExists :=
  (propose_pending_exclusivity_and_stale_eviction envW (some 1) sW8 ⟨4, 0, []⟩
    ⟨pW, pW⟩ rfl).1 1 rfl (Or.inr (by decide)) (by decide)

/-- Schema in which deploy request `dW` and migration request `mW` are already
failed. -/
def sW6 : Schema :=
  { sW with
    deploy_states := [(dW, .Failed 0 .MigrationFailed)],
    migration_states := [(mW, ⟨.Failed 0 .StateHashDivergence, 1, none⟩)] }

/-- Witness for `report_silent_idempotence_after_failure`. -/
theorem report_silent_idempotence_witness :
    report_deploy_result envW (some 1) sW6 ⟨dW, .ok ()⟩ = .ok (sW6, []) ∧
    report_migration_result envW (some 1) sW6 ⟨mW, .ok 42⟩ = .ok (sW6, []) :=
  ⟨(report_silent_idempotence_after_failure envW (some 1) sW6 1 rfl).1
      ⟨dW, .ok ()⟩ (by decide),
   (report_silent_idempotence_after_failure envW (some 1) sW6 1 rfl).2
      ⟨mW, .ok 42⟩ ⟨.Failed 0 .StateHashDivergence, 1, none⟩ (by decide) (by decide)⟩

/-- Schema in which deploy request `dW` is registered and pending. -/
def sW5 : Schema := { sW with
  deploy_states := [(dW, .Pending)],
  pending_deployments := [(dW.artifact, dW)] }

/-- Witness for `report_deploy_err_fails_whole_deploy`. -/
theorem report_deploy_err_witness :
    ∃ s', report_deploy_result envW (some 1) sW5 ⟨dW, .error (.RuntimeError 3)⟩ =
        .ok (s', []) ∧
      alookup s'.deploy_states dW = some (.Failed envW.height (.RuntimeError 3)) ∧
      alookup s'.pending_deployments dW.artifact = none :=
  report_deploy_err_fails_whole_deploy envW (some 1) sW5 1
    ⟨dW, .error (.RuntimeError 3)⟩ (.RuntimeError 3) rfl (by decide) (by decide)
    (by decide) rfl

/-- Witness for `request_migration_fast_forward` in `Simple` mode. -/
theorem request_migration_ff_witness :
    ∃ s', request_migration envW (some 1) { sW with mode := .Simple } mW =
        .ok (s', [.initiate_migration mW.new_artifact mW.service]) ∧
      alookup s'.migration_states mW =
        some ⟨.Succeed, mW.new_artifact.version, none⟩ ∧
      mW ∉ s'.pending_migrations :=
  request_migration_fast_forward envW (some 1) { sW with mode := .Simple } mW 1
    ⟨7, "token", ⟨0, "tok", 1⟩, some .Active, 1⟩ rfl rfl (by decide) (by decide) rfl

/-- Schema with a pending migration `mW` whose state already records hash 7. -/
def sW2 : Schema := { sW with
  migration_states := [(mW, ⟨.Pending, 1, some 7⟩)],
  pending_migrations := [mW] }

/-- Witness for `migration_hash_divergence_fails_and_rolls_back`: a second
validator reports hash 8 against the recorded hash 7. -/
theorem migration_hash_divergence_witness :
    ∃ s', report_migration_result envW (some 1) sW2 ⟨mW, .ok 8⟩ =
        .ok (s', [.rollback_migration mW.service]) ∧
      (∃ st', alookup s'.migration_states mW = some st' ∧
        st'.state = .Failed envW.height .StateHashDivergence) ∧
      mW ∉ s'.pending_migrations :=
  migration_hash_divergence_fails_and_rolls_back envW (some 1) sW2 1 ⟨mW, .ok 8⟩
    ⟨.Pending, 1, some 7⟩ 7 8 rfl rfl rfl (by decide) rfl rfl (by decide) rfl

/-- A concrete proposal that both starts a service from artifact
`(0, "tok", 1)` and unloads that artifact. -/
def p9 : ConfigPropose :=
  ⟨5, 0, [.StartService ⟨"newsvc", ⟨0, "tok", 1⟩, 0⟩,
          .UnloadArtifact ⟨⟨0, "tok", 1⟩⟩]⟩

/-- Witness for `start_unload_conflict_rejected`. -/
theorem start_unload_conflict_witness :
    propose_config_change envW (some 1) sW p9 = .error .MalformedConfigPropose :=
  (start_unload_conflict_rejected envW (some 1) sW p9
      ⟨"newsvc", ⟨0, "tok", 1⟩, 0⟩ ⟨⟨0, "tok", 1⟩⟩
      (by decide) (by decide) rfl).2 rfl rfl rfl 1 p9 sW rfl rfl rfl

/-- The environment `envW` at height 2, past the deadline of `dW`. -/
def envW2 : Env := { envW with height := 2 }

/-- Witness for `deadline_safety`: a deploy report one block past the deadline
is rejected with `DeadlineExceeded`. -/
theorem deadline_safety_witness :
    report_deploy_result envW2 (some 1) sW5 ⟨dW, .ok ()⟩ =
      .error .DeadlineExceeded :=
  (deadline_safety envW2 (some 1) sW5).2.2.2.1 ⟨dW, .ok ()⟩ 1 rfl (by decide)
    (by decide) (by decide)

/-- Schema like `sW5` but in `Simple` mode, so that one confirmation reaches
the quorum. -/
def sW10 : Schema := { sW5 with mode := .Simple }

/-- Witness for `deadlines_inclusive`: a deploy report at exactly the deadline
height is accepted and reaches `Succeed`. -/
theorem deadlines_inclusive_witness :
    ∃ s' calls, report_deploy_result envW (some 1) sW10 ⟨dW, .ok ()⟩ =
        .ok (s', calls) ∧
      alookup s'.deploy_states dW = some .Succeed :=
  (deadlines_inclusive envW (some 1) sW10 1 rfl).2.2.2.2 ⟨dW, .ok ()⟩ rfl
    (by decide) (by decide) rfl (by decide)

/-- The schema produced by a successful `propose_config_change` of `pW` by
validator 1 on the empty schema. -/
def s1W : Schema := { sW with
  configuration_number := 1,
  config_confirms := [(pW, 1)],
  pending_proposal := some ⟨pW, pW⟩ }

/-- The schema after validator 2 additionally voted for `pW` explicitly via
`confirm_config_change` on `s1W`. -/
def s2W : Schema := { s1W with config_confirms := [(pW, 2), (pW, 1)] }

/-- Witness for `confirm_replay_rejected`: validator 2's explicit vote on
`s1W` produces `s2W`, and both the proposer (validator 1, implicit vote) and
validator 2 (explicit vote) are rejected with `AttemptToVoteTwice` when they
vote again. -/
theorem confirm_replay_witness :
    confirm_config_change envW (some 2) s1W ⟨pW⟩ = .ok s2W ∧
    confirm_config_change envW (some 1) s1W ⟨pW⟩ = .error .AttemptToVoteTwice ∧
    confirm_config_change envW (some 2) s2W ⟨pW⟩ = .error .AttemptToVoteTwice :=
  ⟨rfl,
   (confirm_replay_rejected envW (some 1) s1W 1 ⟨pW⟩ ⟨pW, pW⟩ rfl rfl rfl
      (by decide)).1 rfl,
   (confirm_replay_rejected envW (some 2) s2W 2 ⟨pW⟩ ⟨pW, pW⟩ rfl rfl rfl
      (by decide)).1 (by decide)⟩

end Supervisor
